import Mathlib

/-!
Verification of the IndexNow sitemap submitter (`indexnow_submitter.py`,
class `IndexNowSubmitter`) against its natural-language specification.

The Python program is shallowly embedded: every network interaction is
replaced by an explicit environment (HTTP responses, console answers), the
mutable statistics dictionary becomes explicit state passing, and Python's
binary64 floating-point arithmetic is modelled exactly by rounding unreduced
nonnegative rationals to 53 significant bits with round-to-nearest, ties to
even.  Line numbers in doc comments refer to `src/indexnow_submitter.py`.
-/

set_option autoImplicit false

namespace IndexNow

/-! ### String helpers (models of Python/stdlib primitives) -/

/-- Models Python `str.strip()` on a list of characters: remove leading and
trailing whitespace. -/
def stripChars (cs : List Char) : List Char :=
  ((cs.dropWhile Char.isWhitespace).reverse.dropWhile Char.isWhitespace).reverse

/-- Models Python `str.strip()`. -/
def pyStrip (s : String) : String :=
  String.mk (stripChars s.data)

/-- Models Python `str.lower()` (ASCII letters suffice here). -/
def pyLower (s : String) : String :=
  String.mk (s.data.map Char.toLower)

/-- Drops a leading `scheme:` part from a URL character list when one is
present, returning the original list when there is none.  Helper for
`netloc`. -/
def dropSchemeAux (orig : List Char) : List Char → List Char
  | [] => orig
  | c :: rest =>
    if c = ':' then rest
    else if c.isAlphanum ∨ c = '+' ∨ c = '.' ∨ c = '-' then dropSchemeAux orig rest
    else orig

/-- Models `urllib.parse.urlparse(url).netloc` for the absolute URLs handled
by the program: the substring after `scheme://` (or a leading `//`) up to the
next `/`, `?` or `#`; empty when the URL carries no authority component. -/
def netloc (url : String) : String :=
  match dropSchemeAux url.data url.data with
  | '/' :: '/' :: rest =>
    String.mk (rest.takeWhile fun c => ¬(c = '/' ∨ c = '?' ∨ c = '#'))
  | _ => ""

/-! ### The engine table -/

/-- The fixed engine table `self.endpoints` (lines 124-131), in insertion
order. -/
def endpoints : List (String × String) :=
  [("indexnow", "https://api.indexnow.org/indexnow"),
   ("bing", "https://www.bing.com/indexnow"),
   ("yandex", "https://yandex.com/indexnow"),
   ("seznam", "https://search.seznam.cz/indexnow"),
   ("naver", "https://searchadvisor.naver.com/indexnow"),
   ("yep", "https://indexnow.yep.com/indexnow")]

/-! ### Key-file verification (`_verify_key_file`, lines 257-269) -/

/-- One character of the regex class `[a-zA-Z0-9-]`. -/
def isKeyChar (c : Char) : Bool :=
  (('a' ≤ c ∧ c ≤ 'z') ∨ ('A' ≤ c ∧ c ≤ 'Z') ∨ ('0' ≤ c ∧ c ≤ '9') ∨ c = '-')

/-- Models `re.match(r'^[a-zA-Z0-9-]+$', key)` succeeding on a key that
carries no trailing newline (the argument is always stripped first): at least
one character, all from the class. -/
def matchesKeyPattern (key : String) : Bool :=
  decide (key.data ≠ []) && key.data.all isKeyChar

/-- Body of `_verify_key_file` (lines 257-269): given the HTTP status and body
obtained for the candidate URL, return the accepted key, or `none`.  A network
error is represented by the caller passing no response at all. -/
def _verify_key_file (status : Nat) (content : String) : Option String :=
  if status = 200 then
    let key := pyStrip content
    if 8 ≤ key.length ∧ key.length ≤ 128 ∧ matchesKeyPattern key then some key
    else none
  else none

/-! ### Chunking (`_chunk_urls`, lines 448-456) -/

/-- A batch payload `{"host": host, "key": self.api_key, "urlList": chunk}`
(lines 452-456). -/
structure Payload where
  host : String
  key : String
  urlList : List String
deriving DecidableEq

/-- The slices `urls[i : i+B]` for `i = 0, B, 2B, ...` produced by the loop
`for i in range(0, len(urls), self.batch_size)` (lines 450-451), written with
a structural fuel bounded below by the list length (one element is consumed
per step because `B ≥ 1`; Python raises on `B = 0`, which is outside every
claim).  -/
def chunkAux (B : Nat) : Nat → List String → List (List String)
  | _, [] => []
  | 0, _ :: _ => []
  | f + 1, x :: xs => ((x :: xs).take B) :: chunkAux B f ((x :: xs).drop B)

/-- `_chunk_urls` (lines 448-456): split `urls` into consecutive chunks of at
most `batchSize` and wrap each into a payload carrying `host` and the API
key. -/
def _chunk_urls (batchSize : Nat) (apiKey host : String) (urls : List String) :
    List Payload :=
  (chunkAux batchSize urls.length urls).map fun c => ⟨host, apiKey, c⟩

/-! ### Batch submission (`submit_batch`, lines 458-501)

One call of the decorated coroutine is driven by a script of POST responses:
each loop iteration issues one POST and consumes one script entry.  An
exhausted script stands for a transport-level connection error, as does an
explicit `netErr` entry. -/

/-- The response observed for one POST to an engine endpoint. -/
inductive Resp where
  | status (code : Nat)
  | netErr
deriving DecidableEq

/-- The engines granted the 403 soft retry: `engine in ('bing', 'indexnow')`
(line 472). -/
def softRetryEngines : List String := ["bing", "indexnow"]

/-- `max_403_retries = 3 if engine in ('bing', 'indexnow') else 1`
(line 472). -/
def max403Retries (engine : String) : Nat :=
  if engine ∈ softRetryEngines then 3 else 1

/-- The exception `aiohttp.ClientError` as far as this function is concerned
(both the transport errors and the explicit raise on line 481). -/
inductive PyExc where
  | clientError
deriving DecidableEq

/-- Observable side effects of one call of the decorated body: number of
POSTs issued, number of increments of `stats['retried_submissions']`, and the
`asyncio.sleep` durations awaited for 403 key propagation (line 488). -/
structure BodyEffect where
  posts : Nat
  retried : Nat
  sleeps : List Nat
deriving DecidableEq

/-- The `while retry_count < max_403_retries` loop (lines 475-497), inside the
`try` of lines 466-498: one POST per iteration.
  * 429: increment `retried_submissions`, raise `ClientError` (lines 478-481);
  * 403 on a soft-retry engine: bump `retry_count`; sleep `10 * retry_count`
    and go round again while `retry_count < max_403_retries`, otherwise fall
    through to the status checks and fail (lines 483-489);
  * 200/202: success (lines 491-494); anything else: failure (lines 495-497).
Falling out of the loop (unreachable from `retry_count = 0`) returns `None`,
modelled as a failure with no POST. -/
def submitTryLoop (engine : String) : Nat → List Resp → Except PyExc Bool × BodyEffect
  | rc, [] =>
    if rc < max403Retries engine then (.error .clientError, ⟨1, 0, []⟩)
    else (.ok false, ⟨0, 0, []⟩)
  | rc, r :: rest =>
    if rc < max403Retries engine then
      match r with
      | .netErr => (.error .clientError, ⟨1, 0, []⟩)
      | .status code =>
        if code = 429 then (.error .clientError, ⟨1, 1, []⟩)
        else if code = 403 ∧ engine ∈ softRetryEngines then
          if rc + 1 < max403Retries engine then
            let res := submitTryLoop engine (rc + 1) rest
            (res.1, ⟨res.2.posts + 1, res.2.retried, (10 * (rc + 1)) :: res.2.sleeps⟩)
          else (.ok false, ⟨1, 0, []⟩)
        else if code = 200 ∨ code = 202 then (.ok true, ⟨1, 0, []⟩)
        else (.ok false, ⟨1, 0, []⟩)
    else (.ok false, ⟨0, 0, []⟩)

/-- The whole function body under the decorator (lines 463-501): the `try`
around the loop with `except aiohttp.ClientError` returning `False`
(lines 499-501).  Consequently the body never lets an exception escape. -/
def submitBody (engine : String) (script : List Resp) : Except PyExc Bool × BodyEffect :=
  match submitTryLoop engine 0 script with
  | (.error .clientError, eff) => (.ok false, eff)
  | (.ok b, eff) => (.ok b, eff)

/-- Modelled from the tenacity library: the delay
`wait_exponential(multiplier=1, min=4, max=60)` inserts after the `n`-th
failed attempt (line 459). -/
def waitExponential (n : Nat) : Nat :=
  max 4 (min (2 ^ n) 60)

/-- Aggregate outcome of one `submit_batch` call: the returned value, the
number of tenacity attempts consumed, the accumulated body effects, and the
backoff delays tenacity inserted between attempts. -/
structure SubmitResult where
  ok : Bool
  attempts : Nat
  posts : Nat
  retried : Nat
  sleeps : List Nat
  backoffs : List Nat
deriving DecidableEq

/-- Modelled from the tenacity library, for the decorator of lines 458-462:
up to `stop_after_attempt(5)` calls of the body, a retry happens only when the
body raises, and exhaustion invokes `retry_error_callback`, yielding `False`.
`scripts n` is the response script the `n`-th attempt would observe. -/
def tenacityRun (engine : String) (scripts : Nat → List Resp) :
    Nat → Nat → SubmitResult
  | 0, _ => ⟨false, 0, 0, 0, [], []⟩
  | left + 1, n =>
    match submitBody engine (scripts n) with
    | (.ok b, eff) => ⟨b, 1, eff.posts, eff.retried, eff.sleeps, []⟩
    | (.error _, eff) =>
      let r := tenacityRun engine scripts left (n + 1)
      ⟨r.ok, r.attempts + 1, eff.posts + r.posts, eff.retried + r.retried,
        eff.sleeps ++ r.sleeps, waitExponential n :: r.backoffs⟩

/-- `submit_batch` (lines 458-501): the tenacity-decorated coroutine. -/
def submit_batch (engine : String) (scripts : Nat → List Resp) : SubmitResult :=
  tenacityRun engine scripts 5 1

/-! ### Exact model of Python binary64 arithmetic (lines 538-541)

`successful_engines / len(self.endpoints)` and `batch_size * success_ratio`
are IEEE-754 binary64 operations.  Every value arising here is a nonnegative
rational of moderate magnitude, so binary64 is modelled exactly: a `Frac` is
an unreduced nonnegative rational, and `rnd53` rounds it to 53 significant
bits with round-to-nearest, ties to even (the IEEE-754 default; the exponent
is unbounded, which is faithful far away from overflow and underflow). -/

/-- An unreduced nonnegative rational `num / den`. -/
structure Frac where
  num : Nat
  den : Nat
deriving DecidableEq

/-- One step of the binary search for a floor base-two logarithm: raise the
candidate exponent `e` by `k` when `den * 2 ^ (e + k)` still fits below
`num`. -/
def ilogStep (num den e k : Nat) : Nat :=
  if den * 2 ^ (e + k) ≤ num then e + k else e

/-- The largest `e` with `den * 2 ^ e ≤ num`, for `den ≤ num < den * 2 ^ 256`,
found by binary search on the exponent. -/
def floorLog2 (num den : Nat) : Nat :=
  ilogStep num den
    (ilogStep num den
      (ilogStep num den
        (ilogStep num den
          (ilogStep num den
            (ilogStep num den
              (ilogStep num den
                (ilogStep num den 0 128) 64) 32) 16) 8) 4) 2) 1

/-- Round the nonnegative rational `num / den` to the nearest integer, ties
to even. -/
def roundHalfEven (num den : Nat) : Nat :=
  let f := num / den
  let r2 := 2 * (num % den)
  if r2 < den then f
  else if den < r2 then f + 1
  else if f % 2 = 0 then f else f + 1

/-- Round a nonnegative rational to the nearest IEEE-754 binary64 value:
pre-scale by `2 ^ 128` so the value is at least one, locate the binary
exponent, round the 53-bit significand to nearest, ties to even, and scale
back.  Faithful for `0 < num / den < 2 ^ 127`, which covers every value the
program computes; `⟨_, 0⟩` never arises. -/
def rnd53 (q : Frac) : Frac :=
  if q.num = 0 ∨ q.den = 0 then ⟨0, 1⟩
  else
    let n := q.num * 2 ^ 128
    let e := floorLog2 n q.den
    let mant := roundHalfEven (n * 2 ^ 52) (q.den * 2 ^ e)
    if 128 + 52 ≤ e then ⟨mant * 2 ^ (e - (128 + 52)), 1⟩
    else ⟨mant, 2 ^ (128 + 52 - e)⟩

/-- Lines 534-545 of `process_sitemap`, the per-batch statistics update:
given the batch size, `successful_engines` and `len(self.endpoints)`, return
the increments of `successful_submissions` and `failed_submissions`.
`success_ratio` is the binary64 quotient, `successful_urls` is
`int(batch_size * success_ratio)` (binary64 product truncated toward zero,
which for nonnegative values is the floor `num / den`), and the failed count
is the remainder of the batch. -/
def batchCounts (batchSize successfulEngines totalEngines : Nat) : Nat × Nat :=
  if 0 < successfulEngines then
    let ratio := rnd53 ⟨successfulEngines, totalEngines⟩
    let prod := rnd53 ⟨batchSize * ratio.num, ratio.den⟩
    let successfulUrls := prod.num / prod.den
    (successfulUrls, batchSize - successfulUrls)
  else (0, batchSize)

/-! #### Evaluation lemmas for the rounding model -/

lemma ilogStep_inv (num den e k : Nat) (h1 : den * 2 ^ e ≤ num)
    (h2 : num < den * 2 ^ (e + 2 * k)) :
    den * 2 ^ ilogStep num den e k ≤ num ∧
      num < den * 2 ^ (ilogStep num den e k + k) := by
  unfold ilogStep
  split_ifs with h
  · refine ⟨h, ?_⟩
    have he : e + 2 * k = e + k + k := by ring
    rwa [he] at h2
  · exact ⟨h1, by omega⟩

lemma floorLog2_spec (num den : Nat) (h1 : den ≤ num) (h2 : num < den * 2 ^ 256) :
    den * 2 ^ floorLog2 num den ≤ num ∧ num < den * 2 ^ (floorLog2 num den + 1) := by
  have s0 : den * 2 ^ 0 ≤ num := by simpa using h1
  have s1 := ilogStep_inv num den 0 128 s0 (by simpa using h2)
  have s2 := ilogStep_inv num den _ 64 s1.1 (by simpa using s1.2)
  have s3 := ilogStep_inv num den _ 32 s2.1 (by simpa using s2.2)
  have s4 := ilogStep_inv num den _ 16 s3.1 (by simpa using s3.2)
  have s5 := ilogStep_inv num den _ 8 s4.1 (by simpa using s4.2)
  have s6 := ilogStep_inv num den _ 4 s5.1 (by simpa using s5.2)
  have s7 := ilogStep_inv num den _ 2 s6.1 (by simpa using s6.2)
  have s8 := ilogStep_inv num den _ 1 s7.1 (by simpa using s7.2)
  exact s8

lemma rnd53_eval (N D : Nat) (hN : 0 < N) (hD : 0 < D)
    (hE : floorLog2 (N * 2 ^ 128) D < 180) :
    rnd53 ⟨N, D⟩ =
      ⟨roundHalfEven (N * 2 ^ 128 * 2 ^ 52) (D * 2 ^ floorLog2 (N * 2 ^ 128) D),
        2 ^ (180 - floorLog2 (N * 2 ^ 128) D)⟩ := by
  rw [rnd53]
  rw [if_neg (by simp [hN.ne', hD.ne'])]
  simp only []
  rw [if_neg (by omega)]

lemma roundHalfEven_mul_right (a b c : Nat) (hc : 0 < c) :
    roundHalfEven (a * c) (b * c) = roundHalfEven a b := by
  have e1 : 2 * (a * c % (b * c)) = 2 * (a % b) * c := by
    rw [Nat.mul_mod_mul_right]; ring
  have e2 : (2 * (a % b) * c < b * c) = (2 * (a % b) < b) :=
    propext (Nat.mul_lt_mul_right hc)
  have e3 : (b * c < 2 * (a % b) * c) = (b < 2 * (a % b)) :=
    propext (Nat.mul_lt_mul_right hc)
  simp only [roundHalfEven, Nat.mul_div_mul_right _ _ hc, e1, e2, e3]

lemma pow_split (a b c : Nat) (h : a = b + c) : (2:Nat) ^ a = 2 ^ b * 2 ^ c :=
  (congrArg (2 ^ ·) h).trans (pow_add 2 b c)

set_option maxRecDepth 4000 in
set_option maxHeartbeats 1000000 in
lemma rnd53_shift (N T σ : Nat) (h1 : 2 ^ (52 + σ) ≤ N) (h2 : N < 2 ^ (53 + σ))
    (h3 : σ < T) (h4 : T ≤ 180) :
    rnd53 ⟨N, 2 ^ T⟩ = ⟨roundHalfEven N (2 ^ σ), 2 ^ (T - σ)⟩ := by
  have hN : 0 < N := lt_of_lt_of_le (Nat.two_pow_pos _) h1
  have hD : (0:Nat) < 2 ^ T := Nat.two_pow_pos T
  have pre1 : 2 ^ T ≤ N * 2 ^ 128 := by
    calc (2:Nat) ^ T ≤ 2 ^ (180 + σ) := Nat.pow_le_pow_right (by norm_num) (by omega)
    _ = 2 ^ (52 + σ) * 2 ^ 128 := pow_split _ _ _ (by omega)
    _ ≤ N * 2 ^ 128 := Nat.mul_le_mul_right _ h1
  have pre2 : N * 2 ^ 128 < 2 ^ T * 2 ^ 256 := by
    calc N * 2 ^ 128 < 2 ^ (53 + σ) * 2 ^ 128 :=
          (Nat.mul_lt_mul_right (Nat.two_pow_pos 128)).mpr h2
    _ = 2 ^ (181 + σ) := (pow_split _ _ _ (by omega)).symm
    _ ≤ 2 ^ (T + 256) := Nat.pow_le_pow_right (by norm_num) (by omega)
    _ = 2 ^ T * 2 ^ 256 := pow_split _ _ _ rfl
  obtain ⟨spec1, spec2⟩ := floorLog2_spec (N * 2 ^ 128) (2 ^ T) pre1 pre2
  have hEeq : floorLog2 (N * 2 ^ 128) (2 ^ T) = 180 + σ - T := by
    set E := floorLog2 (N * 2 ^ 128) (2 ^ T) with hE
    have c1 : 2 ^ (T + E) < 2 ^ (181 + σ) := by
      calc (2:Nat) ^ (T + E) = 2 ^ T * 2 ^ E := pow_add 2 T E
      _ ≤ N * 2 ^ 128 := spec1
      _ < 2 ^ (53 + σ) * 2 ^ 128 := (Nat.mul_lt_mul_right (Nat.two_pow_pos 128)).mpr h2
      _ = 2 ^ (181 + σ) := (pow_split _ _ _ (by omega)).symm
    have c2 : 2 ^ (180 + σ) < 2 ^ (T + E + 1) := by
      calc (2:Nat) ^ (180 + σ) = 2 ^ (52 + σ) * 2 ^ 128 := pow_split _ _ _ (by omega)
      _ ≤ N * 2 ^ 128 := Nat.mul_le_mul_right _ h1
      _ < 2 ^ T * 2 ^ (E + 1) := spec2
      _ = 2 ^ (T + E + 1) := (pow_split _ _ _ (by omega)).symm
    have d1 : T + E < 181 + σ := (Nat.pow_lt_pow_iff_right (by norm_num)).mp c1
    have d2 : 180 + σ < T + E + 1 := (Nat.pow_lt_pow_iff_right (by norm_num)).mp c2
    omega
  have em : N * 2 ^ 128 * 2 ^ 52 = N * 2 ^ 180 :=
    (mul_assoc N _ _).trans (congrArg (N * ·) (by norm_num))
  have ed : 2 ^ T * 2 ^ (180 + σ - T) = 2 ^ σ * 2 ^ 180 :=
    (pow_split (T + (180 + σ - T)) T (180 + σ - T) rfl).symm.trans
      (pow_split _ σ 180 (by omega))
  have ee : 180 - (180 + σ - T) = T - σ := by omega
  have gnum : roundHalfEven (N * 2 ^ 128 * 2 ^ 52) (2 ^ T * 2 ^ (180 + σ - T))
      = roundHalfEven N (2 ^ σ) := by
    calc roundHalfEven (N * 2 ^ 128 * 2 ^ 52) (2 ^ T * 2 ^ (180 + σ - T))
        = roundHalfEven (N * 2 ^ 180) (2 ^ σ * 2 ^ 180) := congrArg₂ roundHalfEven em ed
      _ = roundHalfEven N (2 ^ σ) := roundHalfEven_mul_right _ _ _ (Nat.two_pow_pos 180)
  have gden : (2:Nat) ^ (180 - (180 + σ - T)) = 2 ^ (T - σ) := congrArg (2 ^ ·) ee
  rw [rnd53_eval N (2 ^ T) hN hD (by omega), hEeq]
  exact congrArg₂ Frac.mk gnum gden

lemma roundHalfEven_le (num den : Nat) :
    roundHalfEven num den ≤ num / den + 1 := by
  simp only [roundHalfEven]
  split_ifs <;> omega

lemma roundHalfEven_ge (num den : Nat) :
    num / den ≤ roundHalfEven num den := by
  simp only [roundHalfEven]
  split_ifs <;> omega

lemma roundHalfEven_up (num den : Nat) (h : den < 2 * (num % den)) :
    roundHalfEven num den = num / den + 1 := by
  simp only [roundHalfEven]
  split_ifs <;> omega

lemma roundHalfEven_tie_odd (num den : Nat) (h : 2 * (num % den) = den)
    (he : num / den % 2 = 1) :
    roundHalfEven num den = num / den + 1 := by
  simp only [roundHalfEven]
  split_ifs <;> omega

/-- Every numerator arising in the accounting computation sits in a unique
binary octave `[2 ^ (52 + σ), 2 ^ (53 + σ))` with a small shift `σ`. -/
lemma octave_exists (N : Nat) (h1 : 2 ^ 52 ≤ N) (h2 : N < 2 ^ 68) :
    ∃ σ, σ ≤ 15 ∧ 2 ^ (52 + σ) ≤ N ∧ N < 2 ^ (53 + σ) := by
  have hN0 : N ≠ 0 := by positivity
  have hl1 : 2 ^ Nat.log 2 N ≤ N := Nat.pow_log_le_self 2 hN0
  have hl2 : N < 2 ^ (Nat.log 2 N + 1) := Nat.lt_pow_succ_log_self (by norm_num) N
  have hL52 : 52 ≤ Nat.log 2 N := by
    have := (Nat.pow_lt_pow_iff_right (by norm_num : 1 < 2)).mp (lt_of_le_of_lt h1 hl2)
    omega
  have hL67 : Nat.log 2 N ≤ 67 := by
    have := (Nat.pow_lt_pow_iff_right (by norm_num : 1 < 2)).mp (lt_of_le_of_lt hl1 h2)
    omega
  refine ⟨Nat.log 2 N - 52, by omega, ?_, ?_⟩
  · rw [show 52 + (Nat.log 2 N - 52) = Nat.log 2 N from by omega]
    exact hl1
  · rw [show 53 + (Nat.log 2 N - 52) = Nat.log 2 N + 1 from by omega]
    exact hl2

/-- Unfolds `batchCounts` through the two binary64 operations once the ratio
constant, the octave shift and the resulting floor are known. -/
lemma batchCounts_floor (b s t Kn T σ q : Nat) (hs : 0 < s)
    (hrc : rnd53 ⟨s, t⟩ = ⟨Kn, 2 ^ T⟩)
    (hshift : rnd53 ⟨b * Kn, 2 ^ T⟩ =
      ⟨roundHalfEven (b * Kn) (2 ^ σ), 2 ^ (T - σ)⟩)
    (hfl : roundHalfEven (b * Kn) (2 ^ σ) / 2 ^ (T - σ) = q) :
    batchCounts b s t = (q, b - q) := by
  calc batchCounts b s t
      = ((rnd53 ⟨b * Kn, 2 ^ T⟩).num / (rnd53 ⟨b * Kn, 2 ^ T⟩).den,
         b - (rnd53 ⟨b * Kn, 2 ^ T⟩).num / (rnd53 ⟨b * Kn, 2 ^ T⟩).den) := by
        rw [batchCounts, if_pos hs, hrc]
    _ = (roundHalfEven (b * Kn) (2 ^ σ) / 2 ^ (T - σ),
         b - roundHalfEven (b * Kn) (2 ^ σ) / 2 ^ (T - σ)) := by rw [hshift]
    _ = (q, b - q) := by rw [hfl]

/-- When the exact product keeps a distance of at least one unit in the last
place from the next multiple of `2 ^ T` on both sides, any rounding inside
one ulp lands in the window `[q * 2 ^ T, (q + 1) * 2 ^ T)`. -/
lemma rhe_div_window (P T σ q : Nat) (hσ : σ ≤ 15) (hT : 16 ≤ T)
    (hlow : q * 2 ^ T ≤ P) (hup : P + 2 ^ 16 ≤ (q + 1) * 2 ^ T) :
    roundHalfEven P (2 ^ σ) / 2 ^ (T - σ) = q := by
  have hYpos : (0:Nat) < 2 ^ σ := Nat.two_pow_pos σ
  have hXY : 2 ^ (T - σ) * 2 ^ σ = 2 ^ T := by
    rw [← pow_add]
    exact congrArg (2 ^ ·) (by omega)
  have hY16 : (2:Nat) ^ σ ≤ 2 ^ 15 := Nat.pow_le_pow_right (by norm_num) hσ
  have hflow : q * 2 ^ (T - σ) ≤ P / 2 ^ σ := by
    rw [Nat.le_div_iff_mul_le hYpos, mul_assoc, hXY]
    exact hlow
  have hfup : P / 2 ^ σ < (q + 1) * 2 ^ (T - σ) - 1 := by
    rw [Nat.div_lt_iff_lt_mul hYpos, Nat.sub_mul, mul_assoc, hXY, one_mul]
    omega
  exact Nat.div_eq_of_lt_le
    (le_trans hflow (roundHalfEven_ge _ _))
    (lt_of_le_of_lt (roundHalfEven_le _ _) (Nat.add_lt_of_lt_sub hfup))

/-- The round-up case: the exact product sits `β` below the boundary
`q * 2 ^ T` with `β` at most half an ulp, so round-to-nearest (ties to even)
lands exactly on the boundary.  The tie `2 β = 2 ^ σ` rounds up because the
floor is odd there. -/
lemma rhe_div_exact_up (P T σ q β : Nat) (hσ : σ ≤ 15) (hT : 17 ≤ T)
    (hq1 : 1 ≤ q) (hP : P + β = q * 2 ^ T) (hβ1 : 1 ≤ β)
    (hβY : 2 * β ≤ 2 ^ σ) :
    roundHalfEven P (2 ^ σ) / 2 ^ (T - σ) = q := by
  have hYpos : (0:Nat) < 2 ^ σ := Nat.two_pow_pos σ
  have hXpos : (0:Nat) < 2 ^ (T - σ) := Nat.two_pow_pos _
  have hXY : 2 ^ (T - σ) * 2 ^ σ = 2 ^ T := by
    rw [← pow_add]
    exact congrArg (2 ^ ·) (by omega)
  have hXe : (2:Nat) ^ (T - σ) = 2 * 2 ^ (T - 1 - σ) := by
    have h := pow_split (T - σ) 1 (T - 1 - σ) (by omega)
    simpa using h
  have hqX1 : 1 ≤ q * 2 ^ (T - σ) := Nat.mul_le_mul hq1 hXpos
  have hY55 : 2 ^ σ ≤ q * 2 ^ T :=
    le_trans (Nat.pow_le_pow_right (by norm_num) (by omega))
      (Nat.le_mul_of_pos_left _ hq1)
  have e4 : (q * 2 ^ (T - σ) - 1) * 2 ^ σ = q * 2 ^ T - 2 ^ σ := by
    rw [Nat.sub_mul, mul_assoc, hXY, one_mul]
  have key : P = (2 ^ σ - β) + (q * 2 ^ (T - σ) - 1) * 2 ^ σ := by
    rw [e4]
    omega
  have hf : P / 2 ^ σ = q * 2 ^ (T - σ) - 1 := by
    rw [key, Nat.add_mul_div_right _ _ hYpos, Nat.div_eq_of_lt (by omega), Nat.zero_add]
  have hrem : P % 2 ^ σ = 2 ^ σ - β := by
    rw [key, Nat.add_mul_mod_self_right, Nat.mod_eq_of_lt (by omega)]
  have hM : roundHalfEven P (2 ^ σ) = q * 2 ^ (T - σ) := by
    rcases Nat.lt_or_ge (2 * β) (2 ^ σ) with h4 | h4
    · rw [roundHalfEven_up _ _ (by rw [hrem]; omega), hf, Nat.sub_add_cancel hqX1]
    · have hqXeven : q * 2 ^ (T - σ) = 2 * (q * 2 ^ (T - 1 - σ)) := by
        rw [hXe]
        ring
      have hodd : P / 2 ^ σ % 2 = 1 := by
        rw [hf]
        omega
      rw [roundHalfEven_tie_odd _ _ (by rw [hrem]; omega) hodd, hf,
        Nat.sub_add_cancel hqX1]
  rw [hM, Nat.mul_div_cancel _ hXpos]

/-- Shift bound: the octave shift of any product numerator is at most 15. -/
lemma octave_sigma_le (b K σ : Nat) (hb : b ≤ 10000) (hK : K ≤ 2 ^ 53)
    (ho1 : 2 ^ 52 * 2 ^ σ ≤ b * K) : σ ≤ 15 := by
  by_contra hcon
  have h16 : (16:Nat) ≤ σ := by omega
  have hm : (2:Nat) ^ 52 * 2 ^ 16 ≤ 2 ^ 52 * 2 ^ σ :=
    Nat.mul_le_mul_left _ (Nat.pow_le_pow_right (by norm_num) h16)
  have hbK : b * K ≤ 10000 * 2 ^ 53 := Nat.mul_le_mul hb hK
  omega

/-- Engine success count 1 of 6: the binary64 floor agrees with `b * 1 / 6`
(the ratio constant is `fl(1/6) = 6004799503160661 / 2 ^ 55`). -/
lemma floorRnd1 (b σ : Nat) (hb1 : 1 ≤ b) (hb : b ≤ 10000)
    (ho1 : 2 ^ (52 + σ) ≤ b * 6004799503160661)
    (ho2 : b * 6004799503160661 < 2 ^ (53 + σ)) :
    roundHalfEven (b * 6004799503160661) (2 ^ σ) / 2 ^ (55 - σ) = b * 1 / 6 := by
  rw [pow_split _ 52 σ rfl] at ho1
  rw [pow_split _ 53 σ rfl] at ho2
  have hσ : σ ≤ 15 := octave_sigma_le b _ σ hb (by norm_num) ho1
  rcases eq_or_ne (b % 6) 0 with hr | hr
  · have happ := rhe_div_exact_up (b * 6004799503160661) 55 σ (b / 6) (2 * (b / 6))
      hσ (by norm_num) (by omega) (by omega) (by omega) (by omega)
    rw [happ]
    omega
  · obtain ⟨c, r, hbcr, hr1, hr5⟩ : ∃ c r, b = 6 * c + r ∧ 1 ≤ r ∧ r ≤ 5 :=
      ⟨b / 6, b % 6, by omega, by omega, by omega⟩
    refine rhe_div_window _ 55 σ _ hσ (by norm_num) ?_ ?_
    · subst hbcr
      omega
    · subst hbcr
      omega

/-- Engine success count 2 of 6: ratio constant
`fl(2/6) = 6004799503160661 / 2 ^ 54`. -/
lemma floorRnd2 (b σ : Nat) (hb1 : 1 ≤ b) (hb : b ≤ 10000)
    (ho1 : 2 ^ (52 + σ) ≤ b * 6004799503160661)
    (ho2 : b * 6004799503160661 < 2 ^ (53 + σ)) :
    roundHalfEven (b * 6004799503160661) (2 ^ σ) / 2 ^ (54 - σ) = b * 2 / 6 := by
  rw [pow_split _ 52 σ rfl] at ho1
  rw [pow_split _ 53 σ rfl] at ho2
  have hσ : σ ≤ 15 := octave_sigma_le b _ σ hb (by norm_num) ho1
  rcases eq_or_ne (b % 3) 0 with hr | hr
  · have happ := rhe_div_exact_up (b * 6004799503160661) 54 σ (b / 3) (b / 3)
      hσ (by norm_num) (by omega) (by omega) (by omega) (by omega)
    rw [happ]
    omega
  · obtain ⟨c, r, hbcr, hr1, hr5⟩ : ∃ c r, b = 3 * c + r ∧ 1 ≤ r ∧ r ≤ 2 :=
      ⟨b / 3, b % 3, by omega, by omega, by omega⟩
    refine rhe_div_window _ 54 σ _ hσ (by norm_num) ?_ ?_
    · subst hbcr
      interval_cases r <;> omega
    · subst hbcr
      interval_cases r <;> omega

/-- Engine success count 3 of 6: ratio constant `fl(3/6) = 2 ^ 52 / 2 ^ 53`.
The product is exactly representable, so the window argument applies to every
batch size. -/
lemma floorRnd3 (b σ : Nat) (hb1 : 1 ≤ b) (hb : b ≤ 10000)
    (ho1 : 2 ^ (52 + σ) ≤ b * 4503599627370496)
    (ho2 : b * 4503599627370496 < 2 ^ (53 + σ)) :
    roundHalfEven (b * 4503599627370496) (2 ^ σ) / 2 ^ (53 - σ) = b * 3 / 6 := by
  rw [pow_split _ 52 σ rfl] at ho1
  have hσ : σ ≤ 15 := octave_sigma_le b _ σ hb (by norm_num) ho1
  exact rhe_div_window _ 53 σ _ hσ (by norm_num) (by omega) (by omega)

/-- Engine success count 4 of 6: ratio constant
`fl(4/6) = 6004799503160661 / 2 ^ 53`. -/
lemma floorRnd4 (b σ : Nat) (hb1 : 1 ≤ b) (hb : b ≤ 10000)
    (ho1 : 2 ^ (52 + σ) ≤ b * 6004799503160661)
    (ho2 : b * 6004799503160661 < 2 ^ (53 + σ)) :
    roundHalfEven (b * 6004799503160661) (2 ^ σ) / 2 ^ (53 - σ) = b * 4 / 6 := by
  rw [pow_split _ 52 σ rfl] at ho1
  rw [pow_split _ 53 σ rfl] at ho2
  have hσ : σ ≤ 15 := octave_sigma_le b _ σ hb (by norm_num) ho1
  rcases eq_or_ne (b % 3) 0 with hr | hr
  · have happ := rhe_div_exact_up (b * 6004799503160661) 53 σ (b * 2 / 3) (b / 3)
      hσ (by norm_num) (by omega) (by omega) (by omega) (by omega)
    rw [happ]
    omega
  · obtain ⟨c, r, hbcr, hr1, hr5⟩ : ∃ c r, b = 3 * c + r ∧ 1 ≤ r ∧ r ≤ 2 :=
      ⟨b / 3, b % 3, by omega, by omega, by omega⟩
    refine rhe_div_window _ 53 σ _ hσ (by norm_num) ?_ ?_
    · subst hbcr
      interval_cases r <;> omega
    · subst hbcr
      interval_cases r <;> omega

/-- Engine success count 5 of 6: ratio constant
`fl(5/6) = 7505999378950827 / 2 ^ 53`.  The product always sits on or above
the boundary, so the window argument applies to every batch size. -/
lemma floorRnd5 (b σ : Nat) (hb1 : 1 ≤ b) (hb : b ≤ 10000)
    (ho1 : 2 ^ (52 + σ) ≤ b * 7505999378950827)
    (ho2 : b * 7505999378950827 < 2 ^ (53 + σ)) :
    roundHalfEven (b * 7505999378950827) (2 ^ σ) / 2 ^ (53 - σ) = b * 5 / 6 := by
  rw [pow_split _ 52 σ rfl] at ho1
  have hσ : σ ≤ 15 := octave_sigma_le b _ σ hb (by norm_num) ho1
  exact rhe_div_window _ 53 σ _ hσ (by norm_num) (by omega) (by omega)

/-- Engine success count 6 of 6: ratio constant `fl(6/6) = 2 ^ 52 / 2 ^ 52`. -/
lemma floorRnd6 (b σ : Nat) (hb1 : 1 ≤ b) (hb : b ≤ 10000)
    (ho1 : 2 ^ (52 + σ) ≤ b * 4503599627370496)
    (ho2 : b * 4503599627370496 < 2 ^ (53 + σ)) :
    roundHalfEven (b * 4503599627370496) (2 ^ σ) / 2 ^ (52 - σ) = b * 6 / 6 := by
  rw [pow_split _ 52 σ rfl] at ho1
  have hσ : σ ≤ 15 := octave_sigma_le b _ σ hb (by norm_num) ho1
  exact rhe_div_window _ 52 σ _ hσ (by norm_num) (by omega) (by omega)

/-- Lines 534-545: for every batch size up to the protocol ceiling and every
possible engine success count, the binary64 computation
`int(batch_size * (successful_engines / len(self.endpoints)))` agrees with
the exact `⌊batchSize * s / 6⌋`, and the failed count is the remainder. -/
theorem batch_accounting (b s : Nat) (hb1 : 1 ≤ b) (hb : b ≤ 10000)
    (hs : s ≤ 6) :
    batchCounts b s endpoints.length = (b * s / 6, b - b * s / 6) := by
  have hep : endpoints.length = 6 := rfl
  rw [hep]
  interval_cases s
  · simp [batchCounts]
  · have hN1 : 2 ^ 52 ≤ b * 6004799503160661 :=
      le_trans (by norm_num) (Nat.le_mul_of_pos_left _ hb1)
    have hN2 : b * 6004799503160661 < 2 ^ 68 :=
      lt_of_le_of_lt (Nat.mul_le_mul_right _ hb) (by norm_num)
    obtain ⟨σ, hσ15, ho1, ho2⟩ := octave_exists _ hN1 hN2
    exact batchCounts_floor b 1 6 6004799503160661 55 σ _ (by norm_num) (by decide)
      (rnd53_shift _ 55 σ ho1 ho2 (by omega) (by norm_num))
      (floorRnd1 b σ hb1 hb ho1 ho2)
  · have hN1 : 2 ^ 52 ≤ b * 6004799503160661 :=
      le_trans (by norm_num) (Nat.le_mul_of_pos_left _ hb1)
    have hN2 : b * 6004799503160661 < 2 ^ 68 :=
      lt_of_le_of_lt (Nat.mul_le_mul_right _ hb) (by norm_num)
    obtain ⟨σ, hσ15, ho1, ho2⟩ := octave_exists _ hN1 hN2
    exact batchCounts_floor b 2 6 6004799503160661 54 σ _ (by norm_num) (by decide)
      (rnd53_shift _ 54 σ ho1 ho2 (by omega) (by norm_num))
      (floorRnd2 b σ hb1 hb ho1 ho2)
  · have hN1 : 2 ^ 52 ≤ b * 4503599627370496 :=
      le_trans (by norm_num) (Nat.le_mul_of_pos_left _ hb1)
    have hN2 : b * 4503599627370496 < 2 ^ 68 :=
      lt_of_le_of_lt (Nat.mul_le_mul_right _ hb) (by norm_num)
    obtain ⟨σ, hσ15, ho1, ho2⟩ := octave_exists _ hN1 hN2
    exact batchCounts_floor b 3 6 4503599627370496 53 σ _ (by norm_num) (by decide)
      (rnd53_shift _ 53 σ ho1 ho2 (by omega) (by norm_num))
      (floorRnd3 b σ hb1 hb ho1 ho2)
  · have hN1 : 2 ^ 52 ≤ b * 6004799503160661 :=
      le_trans (by norm_num) (Nat.le_mul_of_pos_left _ hb1)
    have hN2 : b * 6004799503160661 < 2 ^ 68 :=
      lt_of_le_of_lt (Nat.mul_le_mul_right _ hb) (by norm_num)
    obtain ⟨σ, hσ15, ho1, ho2⟩ := octave_exists _ hN1 hN2
    exact batchCounts_floor b 4 6 6004799503160661 53 σ _ (by norm_num) (by decide)
      (rnd53_shift _ 53 σ ho1 ho2 (by omega) (by norm_num))
      (floorRnd4 b σ hb1 hb ho1 ho2)
  · have hN1 : 2 ^ 52 ≤ b * 7505999378950827 :=
      le_trans (by norm_num) (Nat.le_mul_of_pos_left _ hb1)
    have hN2 : b * 7505999378950827 < 2 ^ 68 :=
      lt_of_le_of_lt (Nat.mul_le_mul_right _ hb) (by norm_num)
    obtain ⟨σ, hσ15, ho1, ho2⟩ := octave_exists _ hN1 hN2
    exact batchCounts_floor b 5 6 7505999378950827 53 σ _ (by norm_num) (by decide)
      (rnd53_shift _ 53 σ ho1 ho2 (by omega) (by norm_num))
      (floorRnd5 b σ hb1 hb ho1 ho2)
  · have hN1 : 2 ^ 52 ≤ b * 4503599627370496 :=
      le_trans (by norm_num) (Nat.le_mul_of_pos_left _ hb1)
    have hN2 : b * 4503599627370496 < 2 ^ 68 :=
      lt_of_le_of_lt (Nat.mul_le_mul_right _ hb) (by norm_num)
    obtain ⟨σ, hσ15, ho1, ho2⟩ := octave_exists _ hN1 hN2
    exact batchCounts_floor b 6 6 4503599627370496 52 σ _ (by norm_num) (by decide)
      (rnd53_shift _ 52 σ ho1 ho2 (by omega) (by norm_num))
      (floorRnd6 b σ hb1 hb ho1 ho2)

/-! ### Sitemap parsing (`fetch_sitemap`, lines 317-446) -/

/-- What a structural XML parse of the (cleaned) content yields: the
`.//ns:sitemap/ns:loc` texts and the `.//ns:url/ns:loc` entries together with
each entry's `xhtml:link[@rel="alternate"]` hrefs, in document order. -/
structure XmlDoc where
  sitemapLocs : List String
  urlEntries : List (String × List String)
deriving DecidableEq

/-- Environment of one `fetch_sitemap` call: the HTTP status of the sitemap
GET, the outcomes of the two structural parse tiers (`none` = `ParseError`),
whether `defusedxml` is importable, and the raw-text regex capture lists used
by the last-resort tier (lines 361-362). -/
structure ParseEnv where
  status : Nat
  tier1 : Option XmlDoc
  defusedAvailable : Bool
  tier2 : Option XmlDoc
  locBodies : List String
  hrefs : List String

/-- How one `fetch_sitemap` call proceeds after fetching and parsing. -/
inductive FetchOutcome where
  | failed
  | leafUrls (urls : List String)
  | regexUrls (urls : List String)
  | indexFound (children : List String)
deriving DecidableEq

/-- Lines 382-395: a parsed tree with sitemap entries is an index; otherwise
every `url/loc` text is collected followed by its alternate hrefs. -/
def extractDoc (d : XmlDoc) : FetchOutcome :=
  if d.sitemapLocs ≠ [] then .indexFound d.sitemapLocs
  else .leafUrls (d.urlEntries.flatMap fun e => e.1 :: e.2)

/-- Lines 322-373: non-200 fetches fail; the first parse tier that succeeds
is interpreted; when the hardened parser is importable but also fails, the
`ParseError` escapes to the outer handler (line 404) and the call fails;
only an `ImportError` (line 355) reaches the regex tier, which returns the
stripped `<loc>` bodies followed by the stripped `href` values. -/
def parseStage (env : ParseEnv) : FetchOutcome :=
  if env.status ≠ 200 then .failed
  else
    match env.tier1 with
    | some d => extractDoc d
    | none =>
      if env.defusedAvailable then
        match env.tier2 with
        | some d => extractDoc d
        | none => .failed
      else .regexUrls (env.locBodies.map pyStrip ++ env.hrefs.map pyStrip)

/-- Lines 408-446, given per-child results of the recursive
`fetch_sitemap` calls: each pair carries the URL list a child returned and
the total `urls_found` increment performed inside that recursive call.  The
index level concatenates the non-empty lists (lines 440-442) and performs no
increment of its own. -/
def _process_sitemap_index (childResults : List (List String × Nat)) :
    List String × Nat :=
  match childResults with
  | [] => ([], 0)
  | r :: rs =>
    let rest := _process_sitemap_index rs
    (if r.1 = [] then rest.1 else r.1 ++ rest.1, r.2 + rest.2)

/-- One `fetch_sitemap` call (lines 317-406): the returned URL list paired
with the total `urls_found` increment performed during the call (the leaf
increment of line 397, the regex increment of line 368, or the sum of the
increments the recursive calls already performed). -/
def fetch_sitemap_step (env : ParseEnv) (childResults : List (List String × Nat)) :
    List String × Nat :=
  match parseStage env with
  | .failed => ([], 0)
  | .leafUrls urls => (urls, urls.length)
  | .regexUrls urls => (urls, urls.length)
  | .indexFound _ => _process_sitemap_index childResults

/-! ### Key management (lines 142-315) -/

/-- Environment of one key-resolution run: the constructor `api_key`
argument, the stored key for the host from `~/.indexnow/keys.json`, the
result of `find_existing_key`, the interactive flag, the key
`_generate_api_key` would produce, the host's HTTP responses to key-file
probes (`none` = network error), and the operator's console answers. -/
structure KeyEnv where
  apiKeyArg : Option String
  storedKey : Option String
  foundKey : Option (String × String)
  interactive : Bool
  generatedKey : String
  keyFile : String → Option (Nat × String)
  responses : List String

/-- The two candidate key-file locations (lines 175-178), root first. -/
def keyLocations (host key : String) : List String :=
  ["https://" ++ host ++ "/" ++ key ++ ".txt",
   "https://" ++ host ++ "/.well-known/" ++ key ++ ".txt"]

/-- `_verify_key_file` applied through the environment: a network error
yields `None`. -/
def verifyAt (env : KeyEnv) (url : String) : Option String :=
  match env.keyFile url with
  | some sc => _verify_key_file sc.1 sc.2
  | none => none

/-- The interactive loop of `wait_for_key_setup` (lines 187-209), driven by
the remaining console answers.  Returns the function result (`none` when the
loop would block forever waiting for input) together with the number of
prompts issued. -/
def wait_for_key_setup (env : KeyEnv) (host key : String) :
    List String → Option Bool × Nat
  | [] => if env.interactive then (none, 0) else (some false, 0)
  | r :: rs =>
    if env.interactive then
      let response := pyLower r
      if response = "cancel" then (some false, 1)
      else if response = "y" ∨ response = "yes" then
        if (keyLocations host key).any (fun loc => verifyAt env loc = some key) then
          (some true, 1)
        else
          let rest := wait_for_key_setup env host key rs
          (rest.1, rest.2 + 1)
      else
        let rest := wait_for_key_setup env host key rs
        (rest.1, rest.2 + 1)
    else (some false, 0)

/-- The key `self.api_key` holds after `initialize_key` follows its
resolution chain (lines 283-306). -/
def resolvedKey (env : KeyEnv) : String :=
  match env.apiKeyArg with
  | some k => k
  | none =>
    match env.storedKey with
    | some k => k
    | none =>
      match env.foundKey with
      | some kv => kv.1
      | none => env.generatedKey

/-- `initialize_key` (lines 275-315): explicit override, stored key and
discovered host key short-circuit to `True`; otherwise a key is generated
and the interactive setup loop decides.  Returns the result (`none` =
blocked forever on console input) and the number of prompts issued. -/
def initialize_key (env : KeyEnv) (sitemapUrl : String) : Option Bool × Nat :=
  match env.apiKeyArg with
  | some _ => (some true, 0)
  | none =>
    match env.storedKey with
    | some _ => (some true, 0)
    | none =>
      match env.foundKey with
      | some _ => (some true, 0)
      | none =>
        wait_for_key_setup env (netloc sitemapUrl) env.generatedKey env.responses

/-! ### The pipeline (`process_sitemap`, lines 503-551) -/

/-- The statistics dictionary `self.stats` (lines 133-140), without the
wall-clock field. -/
structure Stats where
  urls_found : Nat
  successful_submissions : Nat
  failed_submissions : Nat
  retried_submissions : Nat
  batches_processed : Nat
deriving DecidableEq

/-- How one `process_sitemap` call ends. -/
inductive Outcome where
  | abortedNoKey
  | abortedNoUrls
  | blockedOnInput
  | completed
deriving DecidableEq

/-- Observable result of one `process_sitemap` call: the outcome, the batch
payloads submitted, the final statistics, and the number of `submit_batch`
calls issued. -/
structure RunResult where
  outcome : Outcome
  payloads : List Payload
  stats : Stats
  submitCalls : Nat
deriving DecidableEq

/-- Statistics at the start of the batch loop: `urls_found` has been
incremented by the fetch, the other counters are untouched. -/
def initialStats (urlsFound : Nat) : Stats :=
  ⟨urlsFound, 0, 0, 0, 0⟩

/-- One iteration of the batch loop (lines 524-545): submit to every engine
concurrently, count the successes, and update the counters (the
`retried_submissions` increments happened inside `submit_batch`). -/
def processBatch (scripts : String → Nat → List Resp) (st : Stats) (p : Payload) :
    Stats :=
  let results := endpoints.map fun ep => submit_batch ep.1 (scripts ep.1)
  let successfulEngines := (results.filter fun r => r.ok).length
  let counts := batchCounts p.urlList.length successfulEngines endpoints.length
  { st with
    batches_processed := st.batches_processed + 1
    retried_submissions := st.retried_submissions + (results.map fun r => r.retried).sum
    successful_submissions := st.successful_submissions + counts.1
    failed_submissions := st.failed_submissions + counts.2 }

/-- The whole batch loop; also counts the `submit_batch` calls issued.
`scripts i e n` is the response script engine `e` would observe during batch
`i`, tenacity attempt `n`. -/
def runBatches (scripts : Nat → String → Nat → List Resp) :
    Nat → Stats → List Payload → Stats × Nat
  | _, st, [] => (st, 0)
  | i, st, p :: ps =>
    let st1 := processBatch (scripts i) st p
    let rest := runBatches scripts (i + 1) st1 ps
    (rest.1, endpoints.length + rest.2)

/-- Environment of one `process_sitemap` call: the key environment, the
sitemap URL, the URL list `fetch_sitemap` returns, the network scripts of
the submission phase, and the effective batch size `self.batch_size`. -/
structure PipelineEnv where
  keyEnv : KeyEnv
  sitemapUrl : String
  urls : List String
  scripts : Nat → String → Nat → List Resp
  batchSize : Nat

/-- `process_sitemap` (lines 503-551): abort when `initialize_key` fails
(lines 508-510), abort when no URLs were found (lines 514-517), otherwise
take the host from the first URL (line 520), chunk, and run the batch
loop. -/
def process_sitemap (env : PipelineEnv) : RunResult :=
  match initialize_key env.keyEnv env.sitemapUrl with
  | (some true, _) =>
    match env.urls with
    | [] => ⟨.abortedNoUrls, [], initialStats 0, 0⟩
    | u :: _ =>
      let host := netloc u
      let payloads := _chunk_urls env.batchSize (resolvedKey env.keyEnv) host env.urls
      let run := runBatches env.scripts 1 (initialStats env.urls.length) payloads
      ⟨.completed, payloads, run.1, run.2⟩
  | (some false, _) => ⟨.abortedNoKey, [], initialStats 0, 0⟩
  | (none, _) => ⟨.blockedOnInput, [], initialStats 0, 0⟩

/-! ### Theorems -/

lemma matchesKeyPattern_iff (key : String) :
    matchesKeyPattern key = true ↔
      key.data ≠ [] ∧ ∀ c ∈ key.data, isKeyChar c = true := by
  unfold matchesKeyPattern
  rw [Bool.and_eq_true, decide_eq_true_iff, List.all_eq_true]

/-- C4: `_verify_key_file` accepts a fetched body exactly when its stripped
content has length in `[8, 128]` and matches `^[a-zA-Z0-9-]+$` (a nonempty
string over the class `[a-zA-Z0-9-]`); in particular `"abc"` and
`"abc def!"` are rejected and `"abcdefgh-12345"` is accepted. -/
theorem verify_key_file_spec :
    (∀ content : String,
      (∃ k, _verify_key_file 200 content = some k) ↔
        8 ≤ (pyStrip content).length ∧ (pyStrip content).length ≤ 128 ∧
          (pyStrip content).data ≠ [] ∧
          ∀ c ∈ (pyStrip content).data, isKeyChar c = true) ∧
    _verify_key_file 200 ("abc") = none ∧
    _verify_key_file 200 ("abc def!") = none ∧
    _verify_key_file 200 ("abcdefgh-12345") = some ("abcdefgh-12345") := by
  refine ⟨?_, by decide, by decide, by decide⟩
  intro content
  unfold _verify_key_file
  rw [if_pos rfl]
  show (∃ k, (if 8 ≤ (pyStrip content).length ∧ (pyStrip content).length ≤ 128 ∧
      matchesKeyPattern (pyStrip content) = true
    then some (pyStrip content) else none) = some k) ↔ _
  split_ifs with h
  · exact iff_of_true ⟨pyStrip content, rfl⟩
      ⟨h.1, h.2.1, ((matchesKeyPattern_iff _).mp h.2.2).1,
        ((matchesKeyPattern_iff _).mp h.2.2).2⟩
  · refine iff_of_false ?_ ?_
    · rintro ⟨k, hk⟩
      exact hk
    · intro hc
      exact h ⟨hc.1, hc.2.1, (matchesKeyPattern_iff _).mpr ⟨hc.2.2.1, hc.2.2.2⟩⟩

lemma submitBody_ok (engine : String) (script : List Resp) :
    ∃ b eff, submitBody engine script = (.ok b, eff) := by
  unfold submitBody
  rcases h : submitTryLoop engine 0 script with ⟨res, eff⟩
  cases res with
  | error e =>
    cases e
    exact ⟨false, eff, rfl⟩
  | ok b => exact ⟨b, eff, rfl⟩

lemma submit_batch_single (engine : String) (scripts : Nat → List Resp) :
    ∀ b eff, submitBody engine (scripts 1) = (.ok b, eff) →
      submit_batch engine scripts = ⟨b, 1, eff.posts, eff.retried, eff.sleeps, []⟩ := by
  intro b eff h
  show tenacityRun engine scripts (4 + 1) 1 = _
  rw [tenacityRun, h]

/-- C1, behaviour at the failing input: a single HTTP 429 response makes
`submit_batch` increment `retried_submissions` once and return `False` after
one POST, one tenacity attempt, and no backoff sleep — the raised
`aiohttp.ClientError` is caught by the function's own `except` (lines
499-501) before the retry decorator can see it, so the decorator never
retries any call. -/
theorem submit_429_no_retry :
    submit_batch ("yandex") (fun _ => [.status 429]) =
      ⟨false, 1, 1, 1, [], []⟩ ∧
    ∀ (engine : String) (scripts : Nat → List Resp),
      (submit_batch engine scripts).attempts = 1 ∧
      (submit_batch engine scripts).backoffs = [] := by
  constructor
  · rfl
  · intro engine scripts
    obtain ⟨b, eff, h⟩ := submitBody_ok engine (scripts 1)
    rw [submit_batch_single engine scripts b eff h]
    exact ⟨rfl, rfl⟩

/-- C5: HTTP 403 triggers the soft retry only for `bing` and `indexnow`
(lines 471-489): on any other engine a single 403 is an immediate permanent
failure — the next queued response is never consumed — while the two
soft-retry engines get up to two extra POSTs after propagation delays of
10 s and 20 s before giving up; a success on a retried POST is still
reported. -/
theorem submit_403_policy :
    (∀ engine, engine ∉ softRetryEngines →
      submit_batch engine (fun _ => [.status 403, .status 200]) =
        ⟨false, 1, 1, 0, [], []⟩) ∧
    submit_batch ("bing") (fun _ => [.status 403, .status 403, .status 403]) =
      ⟨false, 1, 3, 0, [10, 20], []⟩ ∧
    submit_batch ("indexnow") (fun _ => [.status 403, .status 200]) =
      ⟨true, 1, 2, 0, [10], []⟩ ∧
    submit_batch ("bing") (fun _ => [.status 403, .status 403, .status 200]) =
      ⟨true, 1, 3, 0, [10, 20], []⟩ := by
  refine ⟨?_, by decide, by decide, by decide⟩
  intro engine h
  have hm : max403Retries engine = 1 := by
    unfold max403Retries
    exact if_neg h
  have ht : submitTryLoop engine 0 [Resp.status 403, Resp.status 200] =
      (Except.ok false, ⟨1, 0, []⟩) := by
    simp [submitTryLoop, hm, h]
  have hb : submitBody engine [Resp.status 403, Resp.status 200] =
      (Except.ok false, ⟨1, 0, []⟩) := by
    unfold submitBody
    rw [ht]
  exact submit_batch_single engine _ false ⟨1, 0, []⟩ hb

/-- Witness for `submit_403_policy`: `yandex` is not a soft-retry engine, and
a 403 there fails at once even though a 200 would follow. -/
theorem submit_403_policy_witness :
    (("yandex") ∉ softRetryEngines) ∧
    submit_batch ("yandex") (fun _ => [.status 403, .status 200]) =
      ⟨false, 1, 1, 0, [], []⟩ :=
  ⟨by decide, submit_403_policy.1 ("yandex") (by decide)⟩

lemma chunkAux_nil (B f : Nat) : chunkAux B f [] = [] := by
  cases f <;> rfl

lemma chunkAux_ne_nil (B f : Nat) (l : List String) (hl : l ≠ []) (hf : 1 ≤ f) :
    chunkAux B f l ≠ [] := by
  cases f with
  | zero => omega
  | succ f =>
    cases l with
    | nil => exact absurd rfl hl
    | cons x xs => simp [chunkAux]

lemma chunkAux_flatten (B : Nat) (hB : 1 ≤ B) :
    ∀ (f : Nat) (l : List String), l.length ≤ f → (chunkAux B f l).flatten = l := by
  intro f
  induction f with
  | zero =>
    intro l hl
    cases l with
    | nil => rfl
    | cons x xs => exact absurd hl (by simp)
  | succ f ih =>
    intro l hl
    cases l with
    | nil => rfl
    | cons x xs =>
      show (((x :: xs).take B) :: chunkAux B f ((x :: xs).drop B)).flatten = x :: xs
      rw [List.flatten_cons, ih ((x :: xs).drop B) ?hlen, List.take_append_drop]
      case hlen =>
        rw [List.length_drop]
        simp only [List.length_cons] at hl ⊢
        omega

lemma chunkAux_count (B : Nat) (hB : 1 ≤ B) :
    ∀ (f : Nat) (l : List String), l.length ≤ f →
      (chunkAux B f l).length = (l.length + B - 1) / B := by
  intro f
  induction f with
  | zero =>
    intro l hl
    cases l with
    | nil =>
      show (0:Nat) = (0 + B - 1) / B
      rw [Nat.div_eq_of_lt (by omega)]
    | cons x xs => exact absurd hl (by simp)
  | succ f ih =>
    intro l hl
    cases l with
    | nil =>
      show (0:Nat) = (0 + B - 1) / B
      rw [Nat.div_eq_of_lt (by omega)]
    | cons x xs =>
      show (((x :: xs).take B) :: chunkAux B f ((x :: xs).drop B)).length =
        ((x :: xs).length + B - 1) / B
      rw [List.length_cons,
        ih ((x :: xs).drop B)
          (by rw [List.length_drop]; simp only [List.length_cons] at hl ⊢; omega),
        List.length_drop]
      have hL : 1 ≤ (x :: xs).length := by simp
      have h1 : (x :: xs).length + B - 1 = ((x :: xs).length - 1) + B := by omega
      rw [h1, Nat.add_div_right _ (by omega)]
      by_cases hLB : (x :: xs).length ≤ B
      · have h0 : (x :: xs).length - B = 0 := by omega
        rw [h0, Nat.div_eq_of_lt (by omega : 0 + B - 1 < B),
          Nat.div_eq_of_lt (by omega : (x :: xs).length - 1 < B)]
      · have h2 : (x :: xs).length - B + B - 1 = (x :: xs).length - 1 := by omega
        rw [h2]

lemma chunkAux_sizes (B : Nat) (hB : 1 ≤ B) :
    ∀ (f : Nat) (l : List String), l.length ≤ f →
      (∀ c ∈ (chunkAux B f l).dropLast, c.length = B) ∧
      ∀ c ∈ (chunkAux B f l).getLast?,
        c.length = l.length - B * ((chunkAux B f l).length - 1) := by
  intro f
  induction f with
  | zero =>
    intro l hl
    cases l with
    | nil => exact ⟨by simp [chunkAux_nil], by simp [chunkAux_nil]⟩
    | cons x xs => exact absurd hl (by simp)
  | succ f ih =>
    intro l hl
    cases l with
    | nil => exact ⟨by simp [chunkAux_nil], by simp [chunkAux_nil]⟩
    | cons x xs =>
      by_cases hLB : (x :: xs).length ≤ B
      · have hch : chunkAux B (f + 1) (x :: xs) = [x :: xs] := by
          show ((x :: xs).take B) :: chunkAux B f ((x :: xs).drop B) = [x :: xs]
          rw [List.drop_eq_nil_of_le hLB, chunkAux_nil, List.take_of_length_le hLB]
        rw [hch]
        constructor
        · intro c hc
          simp at hc
        · intro c hc
          simp only [List.getLast?_singleton, Option.mem_def,
            Option.some.injEq] at hc
          subst hc
          simp
      · have hlen : ((x :: xs).drop B).length ≤ f := by
          rw [List.length_drop]
          simp only [List.length_cons] at hl ⊢
          omega
        have hne : chunkAux B f ((x :: xs).drop B) ≠ [] := by
          have hxl : (x :: xs).length = xs.length + 1 := rfl
          refine chunkAux_ne_nil B f _ ?_ ?_
          · intro h0
            have h1 := congrArg List.length h0
            rw [List.length_drop, hxl, List.length_nil] at h1
            rw [hxl] at hLB
            omega
          · have h1 : 1 ≤ ((x :: xs).drop B).length := by
              rw [List.length_drop, hxl]
              rw [hxl] at hLB
              omega
            omega
        obtain ⟨c0, cs0, hc0⟩ := List.exists_cons_of_ne_nil hne
        have hch : chunkAux B (f + 1) (x :: xs) =
            ((x :: xs).take B) :: c0 :: cs0 := by
          show ((x :: xs).take B) :: chunkAux B f ((x :: xs).drop B) = _
          rw [hc0]
        obtain ⟨ihd, ihl⟩ := ih ((x :: xs).drop B) hlen
        rw [hch]
        constructor
        · intro c hc
          have hdl : (((x :: xs).take B) :: c0 :: cs0).dropLast =
              ((x :: xs).take B) :: (c0 :: cs0).dropLast := rfl
          rw [hdl] at hc
          rcases List.mem_cons.mp hc with h | h
          · subst h
            rw [List.length_take]
            exact Nat.min_eq_left (by simp only [List.length_cons] at hLB ⊢; omega)
          · rw [← hc0] at h
            exact ihd c h
        · intro c hc
          rw [List.getLast?_cons_cons, ← hc0] at hc
          have hcl := ihl c hc
          rw [hc0] at hcl
          rw [hcl, List.length_drop]
          simp only [List.length_cons]
          have e1 : cs0.length + 1 - 1 = cs0.length := by omega
          have e2 : cs0.length + 1 + 1 - 1 = cs0.length + 1 := by omega
          rw [e1, e2, Nat.mul_succ]
          generalize B * cs0.length = m
          omega

lemma dropLast_map (g : List String → Payload) :
    ∀ l : List (List String), (l.map g).dropLast = l.dropLast.map g
  | [] => rfl
  | [c] => rfl
  | c :: c2 :: l => by
    have h1 : ((c :: c2 :: l).map g).dropLast =
        g c :: ((c2 :: l).map g).dropLast := rfl
    rw [h1, dropLast_map g (c2 :: l)]
    rfl

lemma getLast?_map (g : List String → Payload) :
    ∀ l : List (List String), (l.map g).getLast? = l.getLast?.map g
  | [] => rfl
  | [c] => rfl
  | c :: c2 :: l => by
    have h1 : ((c :: c2 :: l).map g).getLast? = ((c2 :: l).map g).getLast? :=
      List.getLast?_cons_cons
    rw [h1, getLast?_map g (c2 :: l), List.getLast?_cons_cons]

/-- C3: for a nonempty URL list of length `L` and batch size `B ≥ 1`,
`_chunk_urls` yields `⌈L/B⌉ = (L + B - 1) / B` payloads, the concatenation
of their `urlList` fields is the input list in order, every chunk except the
last has length `B`, and the last has length `L - B·(⌈L/B⌉ - 1)`. -/
theorem chunk_urls_spec (B : Nat) (key host : String) (urls : List String)
    (hB : 1 ≤ B) (hL : 1 ≤ urls.length) :
    (_chunk_urls B key host urls).length = (urls.length + B - 1) / B ∧
    ((_chunk_urls B key host urls).map Payload.urlList).flatten = urls ∧
    (∀ p ∈ (_chunk_urls B key host urls).dropLast, p.urlList.length = B) ∧
    ∀ p ∈ (_chunk_urls B key host urls).getLast?,
      p.urlList.length = urls.length - B * ((urls.length + B - 1) / B - 1) := by
  have hmap : (_chunk_urls B key host urls).map Payload.urlList =
      chunkAux B urls.length urls := by
    unfold _chunk_urls
    rw [List.map_map]
    simp [Function.comp_def]
  obtain ⟨hd, hlst⟩ := chunkAux_sizes B hB urls.length urls le_rfl
  refine ⟨?_, ?_, ?_, ?_⟩
  · show (_chunk_urls B key host urls).length = _
    unfold _chunk_urls
    rw [List.length_map, chunkAux_count B hB urls.length urls le_rfl]
  · rw [hmap, chunkAux_flatten B hB urls.length urls le_rfl]
  · intro p hp
    rw [show _chunk_urls B key host urls =
        (chunkAux B urls.length urls).map (fun c => (⟨host, key, c⟩ : Payload))
        from rfl, dropLast_map] at hp
    obtain ⟨c, hc, hpc⟩ := List.mem_map.mp hp
    rw [← hpc]
    exact hd c hc
  · intro p hp
    rw [show _chunk_urls B key host urls =
        (chunkAux B urls.length urls).map (fun c => (⟨host, key, c⟩ : Payload))
        from rfl, getLast?_map] at hp
    rw [Option.mem_def, Option.map_eq_some'] at hp
    obtain ⟨c, hc, hpc⟩ := hp
    have hcl := hlst c (by rw [Option.mem_def]; exact hc)
    rw [← hpc]
    show c.length = _
    rw [hcl, chunkAux_count B hB urls.length urls le_rfl]

/-- Witness for `chunk_urls_spec`: three URLs in batches of two give one full
chunk and a final chunk of one. -/
theorem chunk_urls_spec_witness :
    (1 ≤ 2 ∧ 1 ≤ ([("u1"), ("u2"), ("u3")] : List String).length) ∧
    ((_chunk_urls 2 ("k") ("h") [("u1"), ("u2"), ("u3")]).length =
        (([("u1"), ("u2"), ("u3")] : List String).length + 2 - 1) / 2 ∧
      ((_chunk_urls 2 ("k") ("h") [("u1"), ("u2"), ("u3")]).map
          Payload.urlList).flatten = [("u1"), ("u2"), ("u3")] ∧
      (∀ p ∈ (_chunk_urls 2 ("k") ("h") [("u1"), ("u2"), ("u3")]).dropLast,
        p.urlList.length = 2) ∧
      ∀ p ∈ (_chunk_urls 2 ("k") ("h") [("u1"), ("u2"), ("u3")]).getLast?,
        p.urlList.length = ([("u1"), ("u2"), ("u3")] : List String).length -
          2 * ((([("u1"), ("u2"), ("u3")] : List String).length + 2 - 1) / 2 - 1)) :=
  ⟨⟨by decide, by decide⟩,
    chunk_urls_spec 2 ("k") ("h") [("u1"), ("u2"), ("u3")] (by decide) (by decide)⟩

/-- C2: one pass of the batch loop (lines 524-545) adds exactly
`⌊batchSize·s/6⌋` to `successful_submissions` and the remainder to
`failed_submissions`, where `s` is the number of engines whose `submit_batch`
returned `True`; in particular a 600-URL batch with exactly 3 successful
engines splits 300/300. -/
theorem batch_stats_update (scripts : String → Nat → List Resp) (st : Stats)
    (p : Payload) (s : Nat) (hb1 : 1 ≤ p.urlList.length)
    (hb : p.urlList.length ≤ 10000)
    (hs : ((endpoints.map fun ep => submit_batch ep.1 (scripts ep.1)).filter
      fun r => r.ok).length = s) :
    (processBatch scripts st p).successful_submissions =
      st.successful_submissions + p.urlList.length * s / 6 ∧
    (processBatch scripts st p).failed_submissions =
      st.failed_submissions + (p.urlList.length - p.urlList.length * s / 6) ∧
    batchCounts 600 3 endpoints.length = (300, 300) := by
  have hs6 : s ≤ 6 := by
    rw [← hs]
    calc ((endpoints.map fun ep => submit_batch ep.1 (scripts ep.1)).filter
        fun r => r.ok).length
        ≤ (endpoints.map fun ep => submit_batch ep.1 (scripts ep.1)).length :=
          List.length_filter_le _ _
      _ = 6 := by rw [List.length_map]; rfl
  have hbc := batch_accounting p.urlList.length s hb1 hb hs6
  refine ⟨?_, ?_, ?_⟩
  · show st.successful_submissions +
      (batchCounts p.urlList.length
        ((endpoints.map fun ep => submit_batch ep.1 (scripts ep.1)).filter
          fun r => r.ok).length endpoints.length).1 = _
    rw [hs, hbc]
  · show st.failed_submissions +
      (batchCounts p.urlList.length
        ((endpoints.map fun ep => submit_batch ep.1 (scripts ep.1)).filter
          fun r => r.ok).length endpoints.length).2 = _
    rw [hs, hbc]
  · exact (batch_accounting 600 3 (by norm_num) (by norm_num)
      (by norm_num)).trans (by decide)

/-- The submission scripts of the C2 witness: `indexnow`, `bing` and
`yandex` answer 200, the other engines 500. -/
def threeOkScripts : String → Nat → List Resp :=
  fun e _ =>
    if e = ("indexnow") ∨ e = ("bing") ∨ e = ("yandex")
    then [Resp.status 200] else [Resp.status 500]

/-- The 600-URL payload of the C2 witness. -/
def demoBatch : Payload :=
  ⟨("h"), ("k"), List.replicate 600 ("u")⟩

lemma demoBatch_len : demoBatch.urlList.length = 600 := by
  show (List.replicate 600 ("u")).length = 600
  rw [List.length_replicate]

/-- Witness for `batch_stats_update`: a 600-URL batch where exactly three
engines succeed splits 300/300. -/
theorem batch_stats_update_witness :
    (1 ≤ demoBatch.urlList.length ∧ demoBatch.urlList.length ≤ 10000 ∧
      ((endpoints.map fun ep => submit_batch ep.1 (threeOkScripts ep.1)).filter
        fun r => r.ok).length = 3) ∧
    ((processBatch threeOkScripts (initialStats 600) demoBatch).successful_submissions =
        (initialStats 600).successful_submissions + demoBatch.urlList.length * 3 / 6 ∧
      (processBatch threeOkScripts (initialStats 600) demoBatch).failed_submissions =
        (initialStats 600).failed_submissions +
          (demoBatch.urlList.length - demoBatch.urlList.length * 3 / 6) ∧
      batchCounts 600 3 endpoints.length = (300, 300)) :=
  ⟨⟨by rw [demoBatch_len]; decide, by rw [demoBatch_len]; decide, by decide⟩,
    batch_stats_update threeOkScripts (initialStats 600) demoBatch 3
      (by rw [demoBatch_len]; decide) (by rw [demoBatch_len]; decide) (by decide)⟩

lemma process_sitemap_index_counts (childResults : List (List String × Nat))
    (hc : ∀ r ∈ childResults, r.2 = r.1.length) :
    (_process_sitemap_index childResults).2 =
      (_process_sitemap_index childResults).1.length := by
  induction childResults with
  | nil => rfl
  | cons r rs ih =>
    have hr := hc r (List.mem_cons_self r rs)
    have ihr := ih fun x hx => hc x (List.mem_cons_of_mem r hx)
    show r.2 + (_process_sitemap_index rs).2 =
      (if r.1 = [] then (_process_sitemap_index rs).1
        else r.1 ++ (_process_sitemap_index rs).1).length
    by_cases h0 : r.1 = []
    · rw [if_pos h0, hr, h0, ← ihr]
      simp
    · rw [if_neg h0, List.length_append, hr, ihr]

/-- C6: one `fetch_sitemap` call increments `urls_found` by exactly the
length of the list it returns, on every path: a leaf parse and a regex
recovery count their own result (lines 368, 397), and at an index level the
increment is the sum the recursive calls already performed, which — as soon
as each child call satisfies this same property — equals the length of the
concatenated result, with no further increment at the index level and hence
no double counting. -/
theorem fetch_counts_returned (env : ParseEnv)
    (childResults : List (List String × Nat))
    (hc : ∀ r ∈ childResults, r.2 = r.1.length) :
    (fetch_sitemap_step env childResults).2 =
      (fetch_sitemap_step env childResults).1.length := by
  unfold fetch_sitemap_step
  cases h : parseStage env with
  | failed => rfl
  | leafUrls urls => rfl
  | regexUrls urls => rfl
  | indexFound children => exact process_sitemap_index_counts childResults hc

/-- Witness for `fetch_counts_returned`: a sitemap index whose two child
calls returned two URLs and none. -/
theorem fetch_counts_returned_witness :
    (∀ r ∈ [(([("u1"), ("u2")] : List String), 2), (([] : List String), 0)],
      r.2 = r.1.length) ∧
    (fetch_sitemap_step
        ⟨200, some ⟨[("https://e.com/c.xml")], []⟩, true, none, [], []⟩
        [(([("u1"), ("u2")] : List String), 2), (([] : List String), 0)]).2 =
      (fetch_sitemap_step
        ⟨200, some ⟨[("https://e.com/c.xml")], []⟩, true, none, [], []⟩
        [(([("u1"), ("u2")] : List String), 2), (([] : List String), 0)]).1.length :=
  ⟨by decide, fetch_counts_returned _ _ (by decide)⟩

lemma extractDoc_leaf_singletons (locs : List String) :
    extractDoc ⟨[], locs.map fun u => (u, [])⟩ = .leafUrls locs := by
  unfold extractDoc
  rw [if_neg (by simp)]
  congr 1
  induction locs with
  | nil => rfl
  | cons u us ih => simp [List.flatMap_cons, ih]

/-- C9, counterexample to the frozen claim: a malformed document (both
structural tiers fail) that still contains a well-formed `<loc>` pair is NOT
recovered when `defusedxml` is importable — only an `ImportError` is caught
on line 355, so the hardened parser's `ParseError` escapes to line 404 and
the call returns nothing — unlike the structurally valid document with the
same `<loc>` content, which yields the URL. -/
theorem regex_fallback_counterexample :
    fetch_sitemap_step ⟨200, none, true, none, [("https://e.com/a")], []⟩ [] =
      ([], 0) ∧
    fetch_sitemap_step
        ⟨200, some ⟨[], [(("https://e.com/a"), [])]⟩, true, none, [], []⟩ [] =
      ([("https://e.com/a")], 1) := by
  exact ⟨rfl, rfl⟩

/-- C9 (amended): the regex tier is reached exactly when the primary parse
fails and `defusedxml` is NOT importable (lines 348-373); in that case the
recovered URLs — stripped `<loc>` bodies then stripped `href` values — match
what a structurally valid document with the same `<loc>` content yields; the
first tier that succeeds is used; but when `defusedxml` is importable and
its parse also fails, the call fails and recovers nothing. -/
theorem regex_fallback_spec (env : ParseEnv) :
    (env.status = 200 → env.tier1 = none → env.defusedAvailable = false →
      parseStage env =
        .regexUrls (env.locBodies.map pyStrip ++ env.hrefs.map pyStrip)) ∧
    (∀ locs : List String, env.status = 200 → env.tier1 = none →
      env.defusedAvailable = false → env.hrefs = [] →
      env.locBodies.map pyStrip = locs →
      fetch_sitemap_step env [] =
        fetch_sitemap_step
          ⟨200, some ⟨[], locs.map fun u => (u, [])⟩, true, none, [], []⟩ []) ∧
    (∀ d, env.status = 200 → env.tier1 = some d →
      parseStage env = extractDoc d) ∧
    (env.status = 200 → env.tier1 = none → env.defusedAvailable = true →
      env.tier2 = none → parseStage env = .failed) := by
  refine ⟨?_, ?_, ?_, ?_⟩
  · intro h1 h2 h3
    simp [parseStage, h1, h2, h3]
  · intro locs h1 h2 h3 h4 h5
    have hp1 : parseStage env =
        .regexUrls (env.locBodies.map pyStrip ++ env.hrefs.map pyStrip) := by
      simp [parseStage, h1, h2, h3]
    have hp2 : parseStage
        ⟨200, some ⟨[], locs.map fun u => (u, [])⟩, true, none, [], []⟩ =
        .leafUrls locs := by
      have : parseStage
          ⟨200, some ⟨[], locs.map fun u => (u, [])⟩, true, none, [], []⟩ =
          extractDoc ⟨[], locs.map fun u => (u, [])⟩ := by
        simp [parseStage]
      rw [this, extractDoc_leaf_singletons]
    unfold fetch_sitemap_step
    rw [hp1, hp2]
    simp [h4, h5]
  · intro d h1 h2
    simp [parseStage, h1, h2]
  · intro h1 h2 h3 h4
    simp [parseStage, h1, h2, h3, h4]

/-- Witness for `regex_fallback_spec`: a raw text with one `<loc>` body
needing a strip, `defusedxml` absent, no hrefs. -/
theorem regex_fallback_spec_witness :
    ([(" https://e.com/a ")].map pyStrip = [("https://e.com/a")]) ∧
    parseStage ⟨200, none, false, none, [(" https://e.com/a ")], []⟩ =
      .regexUrls ([(" https://e.com/a ")].map pyStrip ++
        ([] : List String).map pyStrip) ∧
    fetch_sitemap_step ⟨200, none, false, none, [(" https://e.com/a ")], []⟩ [] =
      fetch_sitemap_step
        ⟨200, some ⟨[], [("https://e.com/a")].map fun u => (u, [])⟩,
          true, none, [], []⟩ [] :=
  ⟨by decide,
    (regex_fallback_spec _).1 rfl rfl rfl,
    (regex_fallback_spec _).2.1 [("https://e.com/a")] rfl rfl rfl rfl (by decide)⟩

lemma wait_noninteractive (env : KeyEnv) (host key : String)
    (h : env.interactive = false) :
    ∀ rs : List String, wait_for_key_setup env host key rs = (some false, 0) := by
  intro rs
  cases rs with
  | nil => simp [wait_for_key_setup, h]
  | cons r rs => simp [wait_for_key_setup, h]

lemma runBatches_calls (scripts : Nat → String → Nat → List Resp) :
    ∀ (ps : List Payload) (i : Nat) (st : Stats),
      (runBatches scripts i st ps).2 = endpoints.length * ps.length := by
  intro ps
  induction ps with
  | nil => intro i st; rfl
  | cons p ps ih =>
    intro i st
    show endpoints.length +
        (runBatches scripts (i + 1) (processBatch (scripts i) st p) ps).2 =
      endpoints.length * (p :: ps).length
    rw [ih, List.length_cons, Nat.mul_succ, Nat.add_comm]

lemma chunk_urls_cons_ne_nil (B : Nat) (key host u : String) (us : List String) :
    _chunk_urls B key host (u :: us) ≠ [] := by
  have h1 : chunkAux B (u :: us).length (u :: us) =
      ((u :: us).take B) :: chunkAux B us.length ((u :: us).drop B) := rfl
  show (chunkAux B (u :: us).length (u :: us)).map
    (fun c => (⟨host, key, c⟩ : Payload)) ≠ []
  rw [h1]
  simp

/-- The pipeline environment of the C7 counterexample: key resolution
succeeds via the explicit override, but the fetch returned no URLs. -/
def c7Env : PipelineEnv :=
  ⟨⟨some ("k8s0key0"), none, none, false, (""), fun _ => none, []⟩,
    ("https://e.com/sitemap.xml"), [], fun _ _ _ => [], 100⟩

/-- C7, counterexample to the frozen claim: with an explicit key override
the key resolution succeeds, yet a run whose fetch found no URLs also
aborts before any submission (lines 514-517) — the `Cancelled` key state is
not the only pre-submission abort path. -/
theorem key_only_abort_counterexample :
    (initialize_key c7Env.keyEnv c7Env.sitemapUrl).1 = some true ∧
    (process_sitemap c7Env).outcome = .abortedNoUrls ∧
    (process_sitemap c7Env).submitCalls = 0 :=
  ⟨rfl, rfl, rfl⟩

/-- C7 (amended): in non-interactive mode with no override, no stored key
and no discoverable key file, `initialize_key` yields `False` with no
prompt and `process_sitemap` aborts with nothing submitted; however this is
not the only pre-submission abort — in general no `submit_batch` call is
issued exactly when key resolution does not succeed OR the fetched URL list
is empty. -/
theorem key_failure_aborts (env : PipelineEnv)
    (h1 : env.keyEnv.apiKeyArg = none) (h2 : env.keyEnv.storedKey = none)
    (h3 : env.keyEnv.foundKey = none) (h4 : env.keyEnv.interactive = false) :
    initialize_key env.keyEnv env.sitemapUrl = (some false, 0) ∧
    process_sitemap env = ⟨.abortedNoKey, [], initialStats 0, 0⟩ ∧
    ∀ env' : PipelineEnv, (process_sitemap env').submitCalls = 0 ↔
      ((initialize_key env'.keyEnv env'.sitemapUrl).1 ≠ some true ∨
        env'.urls = []) := by
  have hik : initialize_key env.keyEnv env.sitemapUrl = (some false, 0) := by
    unfold initialize_key
    rw [h1, h2, h3]
    exact wait_noninteractive env.keyEnv _ _ h4 env.keyEnv.responses
  refine ⟨hik, ?_, ?_⟩
  · unfold process_sitemap
    rw [hik]
  · intro env'
    unfold process_sitemap
    rcases hik' : initialize_key env'.keyEnv env'.sitemapUrl with ⟨ob, n⟩
    cases ob with
    | none => simp
    | some b =>
      cases b with
      | false => simp
      | true =>
        cases hu : env'.urls with
        | nil => simp
        | cons u us =>
          show (runBatches env'.scripts 1 (initialStats (u :: us).length)
              (_chunk_urls env'.batchSize (resolvedKey env'.keyEnv) (netloc u)
                (u :: us))).2 = 0 ↔ _
          rw [runBatches_calls]
          constructor
          · intro h0
            rcases Nat.mul_eq_zero.mp h0 with h | h
            · exact absurd h (by decide)
            · rw [List.length_eq_zero] at h
              exact absurd h (chunk_urls_cons_ne_nil env'.batchSize
                (resolvedKey env'.keyEnv) (netloc u) u us)
          · intro h0
            rcases h0 with h | h
            · exact absurd rfl h
            · exact absurd h (by simp)

/-- The pipeline environment of the C7 witness: nothing resolves a key and
the run is non-interactive. -/
def c7WitnessEnv : PipelineEnv :=
  ⟨⟨none, none, none, false, ("generatedkey0"), fun _ => none, []⟩,
    ("https://e.com/sitemap.xml"), [("https://e.com/a")], fun _ _ _ => [], 100⟩

/-- Witness for `key_failure_aborts` at a concrete non-interactive keyless
environment. -/
theorem key_failure_aborts_witness :
    initialize_key c7WitnessEnv.keyEnv c7WitnessEnv.sitemapUrl =
      (some false, 0) ∧
    process_sitemap c7WitnessEnv = ⟨.abortedNoKey, [], initialStats 0, 0⟩ ∧
    ∀ env' : PipelineEnv, (process_sitemap env').submitCalls = 0 ↔
      ((initialize_key env'.keyEnv env'.sitemapUrl).1 ≠ some true ∨
        env'.urls = []) :=
  key_failure_aborts c7WitnessEnv rfl rfl rfl rfl

/-- The generated key of the C8 counterexample. -/
def c8Key : String := ("abcdefgh12345678abcdefgh12345678")

/-- The key environment of the C8 counterexample: the well-known key file
for the generated key is already in place with the right body. -/
def c8Env : KeyEnv :=
  ⟨none, none, none, true, c8Key,
    fun u =>
      if u = ("https://e.com/.well-known/") ++ c8Key ++ (".txt")
      then some (200, c8Key) else none,
    [("y")]⟩

/-- C8, counterexample to the frozen claim: although the generated key's
well-known file already exists with the right body, `initialize_key`
prompts once before verifying (`input()` on line 199 precedes the check of
line 202), so it returns `True` only after one prompt; with no console
input it blocks instead of succeeding — it never succeeds without a
prompt. -/
theorem key_no_prompt_counterexample :
    initialize_key c8Env ("https://e.com/sitemap.xml") = (some true, 1) ∧
    initialize_key ⟨none, none, none, true, c8Key, c8Env.keyFile, []⟩
      ("https://e.com/sitemap.xml") = (none, 0) :=
  ⟨rfl, rfl⟩

/-- C8 (amended): with the generated key's well-known file in place and the
stripped body equal to the key, an interactive run whose first console
answer is `y` gets `True` from `initialize_key` after exactly one prompt —
the prompt is issued unconditionally before any verification. -/
theorem key_setup_requires_prompt (env : KeyEnv) (sitemapUrl : String)
    (h1 : env.apiKeyArg = none) (h2 : env.storedKey = none)
    (h3 : env.foundKey = none) (h4 : env.interactive = true)
    (hv : verifyAt env (("https://") ++ netloc sitemapUrl ++
      ("/.well-known/") ++ env.generatedKey ++ (".txt")) =
      some env.generatedKey)
    (hr : ∃ r rs, env.responses = r :: rs ∧ pyLower r = ("y")) :
    initialize_key env sitemapUrl = (some true, 1) := by
  obtain ⟨r, rs, hrs, hy⟩ := hr
  have hany : (keyLocations (netloc sitemapUrl) env.generatedKey).any
      (fun loc => verifyAt env loc = some env.generatedKey) = true := by
    rw [List.any_eq_true]
    refine ⟨("https://") ++ netloc sitemapUrl ++ ("/.well-known/") ++
      env.generatedKey ++ (".txt"), ?_, ?_⟩
    · exact List.mem_cons_of_mem _ (List.mem_singleton.mpr rfl)
    · rw [decide_eq_true_iff]
      exact hv
  unfold initialize_key
  rw [h1, h2, h3, hrs]
  unfold wait_for_key_setup
  rw [h4]
  simp only [if_true, hy, hany]
  norm_num
  decide

/-- The key environment of the C8 witness. -/
def c8WitnessEnv : KeyEnv :=
  ⟨none, none, none, true, ("witnesskey99"),
    fun u =>
      if u = ("https://x.org/.well-known/") ++ ("witnesskey99") ++ (".txt")
      then some (200, ("witnesskey99")) else none,
    [("Y")]⟩

/-- Witness for `key_setup_requires_prompt` at a concrete environment whose
operator answers `Y`. -/
theorem key_setup_requires_prompt_witness :
    initialize_key c8WitnessEnv ("https://x.org/s.xml") = (some true, 1) :=
  key_setup_requires_prompt c8WitnessEnv ("https://x.org/s.xml") rfl rfl rfl
    rfl (by decide) ⟨("Y"), [], rfl, by decide⟩

lemma chunk_payload_fields (B : Nat) (key host : String) (urls : List String) :
    ∀ p ∈ _chunk_urls B key host urls, p.host = host ∧ p.key = key := by
  intro p hp
  unfold _chunk_urls at hp
  obtain ⟨c, hc, hpc⟩ := List.mem_map.mp hp
  rw [← hpc]
  exact ⟨rfl, rfl⟩

/-- C10: every batch payload built by `process_sitemap` carries as `host`
the network location of the FIRST fetched URL (line 520) — never one
derived from the sitemap URL — together with the resolved API key, and all
batches share them even when later URLs belong to other hosts. -/
theorem payload_host_from_first_url (env : PipelineEnv) (u : String)
    (us : List String) (h : env.urls = u :: us) :
    ∀ p ∈ (process_sitemap env).payloads,
      p.host = netloc u ∧ p.key = resolvedKey env.keyEnv := by
  unfold process_sitemap
  rcases hik : initialize_key env.keyEnv env.sitemapUrl with ⟨ob, n⟩
  cases ob with
  | none => intro p hp; simp at hp
  | some b =>
    cases b with
    | false => intro p hp; simp at hp
    | true =>
      rw [h]
      intro p hp
      exact chunk_payload_fields env.batchSize (resolvedKey env.keyEnv)
        (netloc u) (u :: us) p hp

/-- The pipeline environment of the C10 witness: the URL list mixes hosts
`a.com` and `b.org`, and the sitemap lives on `other.example`. -/
def c10Env : PipelineEnv :=
  ⟨⟨some ("abcdefgh-key-123"), none, none, false, (""), fun _ => none, []⟩,
    ("https://other.example/sitemap.xml"),
    [("https://a.com/1"), ("https://b.org/2"), ("https://b.org/3")],
    fun _ _ _ => [], 2⟩

/-- Witness for `payload_host_from_first_url`: in the mixed-host run a
payload holding a `b.org` URL still carries host `a.com`. -/
theorem payload_host_from_first_url_witness :
    ∃ p ∈ (process_sitemap c10Env).payloads,
      p.host = netloc ("https://a.com/1") ∧
        p.key = resolvedKey c10Env.keyEnv :=
  ⟨⟨("a.com"), ("abcdefgh-key-123"), [("https://a.com/1"), ("https://b.org/2")]⟩,
    by decide,
    payload_host_from_first_url c10Env ("https://a.com/1")
      [("https://b.org/2"), ("https://b.org/3")] rfl _ (by decide)⟩

end IndexNow
